import Mathlib

/-!
Verification of the household carbon reporting script (`plot.py`).

The script joins a half-hourly household smart-meter import series with a
national grid carbon-intensity / generation-mix series, cleans outliers from
the home series, aggregates into calendar weeks, and reports load-weighted
carbon intensities and a per-source attribution of the home's usage.

Shallow embedding conventions:
  * a timestamp is an integer count of half-hour slots from a fixed
    week boundary, so `weekOf` (integer floor division by 336 slots)
    is the weekly resampling bucket (weeks end on Sunday in the data;
    only the partition into weeks matters to the properties proved here);
  * a pandas float column is a `List (Option ℚ)`: `none` stands for a
    missing value (`NaN` / `pd.NA`), `some q` for an ordinary number;
  * column sums use pandas `skipna` semantics: missing entries count 0;
  * a division whose divisor is zero yields `none` (pandas produces a
    `NaN`/`inf` float, i.e. no ordinary number, and does not raise).
-/

namespace BellverCarbon

abbrev Time := ℤ

/-- Half-hour slots in one week (the `resample('W')` bucket width). -/
def slotsPerWeek : ℤ := 336

/-- Weekly bucket of a timestamp: floor division so that every timestamp,
also a negative one, lands in exactly one week. -/
def weekOf (t : Time) : ℤ := Int.fdiv t slotsPerWeek

/-- `df.loc[df['imports'] > 15, 'imports'] = pd.NA`: a reading strictly
greater than 15 kWh is marked missing; a missing reading stays missing. -/
def markError (v : Option ℚ) : Option ℚ :=
  match v with
  | none => none
  | some x => if 15 < x then none else some x

/-- Positions (0-based) and values of the valid (non-missing) entries of a
column, offset by `n`. -/
def validPairsFrom : ℕ → List (Option ℚ) → List (ℕ × ℚ)
  | _, [] => []
  | i, none :: rest => validPairsFrom (i + 1) rest
  | i, some v :: rest => (i, v) :: validPairsFrom (i + 1) rest

/-- Positions and values of the valid entries of a column. -/
def validPairs (l : List (Option ℚ)) : List (ℕ × ℚ) := validPairsFrom 0 l

/-- Nearest valid entry strictly before position `i`. -/
def prevValid (l : List (Option ℚ)) (i : ℕ) : Option (ℕ × ℚ) :=
  ((validPairs l).filter (fun p => decide (p.1 < i))).getLast?

/-- Nearest valid entry strictly after position `i`. -/
def nextValid (l : List (Option ℚ)) (i : ℕ) : Option (ℕ × ℚ) :=
  ((validPairs l).filter (fun p => decide (i < p.1))).head?

/-- One entry of pandas `Series.interpolate()` with its default `linear`
method: a valid entry is kept; a missing entry strictly between two valid
entries is filled proportionally to its *position* between them (the index
timestamps are ignored by this method); a missing entry after the last valid
entry takes the last valid value; a missing entry before the first valid
entry stays missing. -/
def interpolateAt (l : List (Option ℚ)) (i : ℕ) : Option ℚ :=
  match l.get? i with
  | some (some v) => some v
  | _ =>
    match prevValid l i, nextValid l i with
    | some (j, vj), some (k, vk) =>
        some (vj + (vk - vj) * (((i : ℚ) - (j : ℚ)) / ((k : ℚ) - (j : ℚ))))
    | some (_, vj), none => some vj
    | none, _ => none

/-- `interpolateAt l` applied at positions `n, n+1, ...`, one per entry of
the third argument (a structural counter running over the column). -/
def interpIdx (l : List (Option ℚ)) : ℕ → List (Option ℚ) → List (Option ℚ)
  | _, [] => []
  | n, _ :: rest => interpolateAt l n :: interpIdx l (n + 1) rest

/-- pandas `Series.interpolate()` applied to a whole column: entry `i` of
the result is `interpolateAt l i`. -/
def interpolate (l : List (Option ℚ)) : List (Option ℚ) :=
  interpIdx l 0 l

/-- `open_smart_meter`: the raw home-import series (timestamp, optional kWh
reading), with readings above 15 kWh marked missing and missing values then
filled by `interpolate`. -/
def open_smart_meter (raw : List (Time × Option ℚ)) : List (Time × Option ℚ) :=
  ((raw.map (fun p => (p.1, markError p.2))).map Prod.fst).zip
    (interpolate ((raw.map (fun p => (p.1, markError p.2))).map Prod.snd))

/-- One row of `grid.csv`: carbon intensity (g/kWh), total generation, and
the ten source-generation columns (GAS, COAL, NUCLEAR, WIND, HYDRO, IMPORTS,
BIOMASS, OTHER, SOLAR, STORAGE) in that order. -/
structure GridRow where
  carbonIntensity : ℚ
  generation : ℚ
  sources : List ℚ
  deriving Repr, DecidableEq

/-- Index lookup: first row of the keyed list carrying timestamp `t`. -/
def lookupT {α : Type} (t : Time) : List (Time × α) → Option α
  | [] => none
  | p :: rest => if p.1 = t then some p.2 else lookupT t rest

/-- One row of the inner-joined table built by `carbon_mix`. -/
structure JoinedRow where
  t : Time
  imports : Option ℚ
  grid : GridRow
  deriving Repr, DecidableEq

/-- `df.join(grid[...], how='inner')`: keep each home row whose timestamp
also appears in the grid series, pairing it with the grid row. -/
def innerJoin (home : List (Time × Option ℚ)) (grid : List (Time × GridRow)) :
    List JoinedRow :=
  home.filterMap (fun p => (lookupT p.1 grid).map (fun g => ⟨p.1, p.2, g⟩))

/-- The joined table of `carbon_mix`: cleaned home series inner-joined with
the grid series. -/
def carbonJoined (raw : List (Time × Option ℚ)) (grid : List (Time × GridRow)) :
    List JoinedRow :=
  innerJoin (open_smart_meter raw) grid

/-- `df['home_carbon'] = df['imports'] * df['CARBON_INTENSITY']` per row. -/
def homeCarbon (r : JoinedRow) : Option ℚ :=
  r.imports.map (fun x => x * r.grid.carbonIntensity)

/-- `df['grid_carbon'] = df['GENERATION'] * df['CARBON_INTENSITY']` per row. -/
def gridCarbon (r : JoinedRow) : ℚ := r.grid.generation * r.grid.carbonIntensity

/-- pandas column sum with `skipna` semantics: a missing entry counts 0. -/
def nanSum (l : List (Option ℚ)) : ℚ := (l.map (fun o => o.getD 0)).sum

/-- Rows of the joined table falling in week `w` (`resample('W')` bucket). -/
def weekRows (j : List JoinedRow) (w : ℤ) : List JoinedRow :=
  j.filter (fun r => decide (weekOf r.t = w))

/-- Weekly summed home imports. -/
def weeklyImports (j : List JoinedRow) (w : ℤ) : ℚ :=
  nanSum ((weekRows j w).map (fun r => r.imports))

/-- Weekly summed home carbon. -/
def weeklyHomeCarbon (j : List JoinedRow) (w : ℤ) : ℚ :=
  nanSum ((weekRows j w).map homeCarbon)

/-- Weekly summed grid generation. -/
def weeklyGeneration (j : List JoinedRow) (w : ℤ) : ℚ :=
  ((weekRows j w).map (fun r => r.grid.generation)).sum

/-- Weekly summed grid carbon. -/
def weeklyGridCarbon (j : List JoinedRow) (w : ℤ) : ℚ :=
  ((weekRows j w).map gridCarbon).sum

/-- `df_weekly['home_carbon'] / df_weekly['imports']`: the weekly home
carbon intensity; `none` when the weekly import sum is zero (pandas yields a
`NaN`/`inf` float there instead of raising). -/
def homeCarbonIntensity (j : List JoinedRow) (w : ℤ) : Option ℚ :=
  if weeklyImports j w = 0 then none
  else some (weeklyHomeCarbon j w / weeklyImports j w)

/-- `df_weekly['grid_carbon'] / df_weekly['GENERATION']`: the weekly grid
carbon intensity; `none` when the weekly generation sum is zero. -/
def gridCarbonIntensity (j : List JoinedRow) (w : ℤ) : Option ℚ :=
  if weeklyGeneration j w = 0 then none
  else some (weeklyGridCarbon j w / weeklyGeneration j w)

/-- Total home imports of the whole joined table. -/
def totalImports (j : List JoinedRow) : ℚ := nanSum (j.map (fun r => r.imports))

/-- Total home carbon of the whole joined table. -/
def totalHomeCarbon (j : List JoinedRow) : ℚ := nanSum (j.map homeCarbon)

/-- Total grid generation of the whole joined table. -/
def totalGeneration (j : List JoinedRow) : ℚ :=
  (j.map (fun r => r.grid.generation)).sum

/-- Total grid carbon of the whole joined table. -/
def totalGridCarbon (j : List JoinedRow) : ℚ := (j.map gridCarbon).sum

/-- `home_avg = df['home_carbon'].sum() / df['imports'].sum()` over the whole
joined table; `none` when the divisor is zero. -/
def homeAvg (j : List JoinedRow) : Option ℚ :=
  if totalImports j = 0 then none else some (totalHomeCarbon j / totalImports j)

/-- `grid_avg = df['grid_carbon'].sum() / df['GENERATION'].sum()` over the
whole joined table; `none` when the divisor is zero. -/
def gridAvg (j : List JoinedRow) : Option ℚ :=
  if totalGeneration j = 0 then none
  else some (totalGridCarbon j / totalGeneration j)

/-- Round to the nearest integer, ties to even: the rounding used when a
Python float is rendered with `:.2f` (at rational precision). -/
def roundHalfEven (x : ℚ) : ℤ :=
  if x - Int.floor x < 1 / 2 then Int.floor x
  else if 1 / 2 < x - Int.floor x then Int.floor x + 1
  else if Even (Int.floor x) then Int.floor x else Int.floor x + 1

/-- Value printed by an `:.2f` format specifier, at rational precision:
the argument rounded to two decimal places. -/
def fmtTwoDp (x : ℚ) : ℚ := (roundHalfEven (x * 100) : ℚ) / 100

/-- The two numbers printed on the console summary lines of `carbon_mix`:
the overall home and grid average carbon intensities, each formatted with
`:.2f` (and `none` when the corresponding divisor is zero). -/
def summaryValues (j : List JoinedRow) : Option ℚ × Option ℚ :=
  ((homeAvg j).map fmtTwoDp, (gridAvg j).map fmtTwoDp)

/-- `grid_mix[source] = grid[source] / grid[GENERATION_MIX_COLUMNS].sum(axis=1)`
for the source column with index `s`: the row's source-mix fraction, `none`
when the row's total across the source columns is zero (pandas yields
`NaN`/`inf` floats there). -/
def mixFrac (r : GridRow) (s : ℕ) : Option ℚ :=
  if r.sources.sum = 0 then none
  else (r.sources.get? s).map (fun g => g / r.sources.sum)

/-- `df[source] = df['imports'] * grid_mix[source]` at one home row: pandas
aligns the product on the home row's timestamp, so the result is missing
(`NaN`) when the home reading is missing, when the timestamp has no grid
row, or when the grid row's source total is zero. -/
def attributedAt (grid : List (Time × GridRow)) (p : Time × Option ℚ)
    (s : ℕ) : Option ℚ :=
  match p.2, lookupT p.1 grid with
  | some x, some r => (mixFrac r s).map (fun f => x * f)
  | _, _ => none

/-- `calculate_home_source_usage`, as the weekly table it returns: the entry
at week `w` and source column `s` is the `skipna` sum, over the cleaned home
rows of that week, of the home import volume times the source's grid-mix
fraction at that timestamp. -/
def calculate_home_source_usage (raw : List (Time × Option ℚ))
    (grid : List (Time × GridRow)) (w : ℤ) (s : ℕ) : ℚ :=
  nanSum (((open_smart_meter raw).filter (fun p => decide (weekOf p.1 = w))).map
    (fun p => attributedAt grid p s))

/-- Total cleaned home imports of a week, over all home rows of that week
(whether or not the timestamp also appears in the grid series). -/
def weeklyHomeImportsAll (raw : List (Time × Option ℚ)) (w : ℤ) : ℚ :=
  nanSum (((open_smart_meter raw).filter
    (fun p => decide (weekOf p.1 = w))).map Prod.snd)

/-- Spec-side comparator for C1: the arithmetic mean of the per-timestamp
home carbon intensities of a week (each per-timestamp home intensity is the
grid carbon intensity itself, since `imports*ci/imports = ci`). -/
def specArithMeanIntensity (j : List JoinedRow) (w : ℤ) : ℚ :=
  ((weekRows j w).map (fun r => r.grid.carbonIntensity)).sum /
    ((weekRows j w).length : ℚ)

/-- Spec-side comparator for C2, following the spec's words: the linear
interpolation between the time-adjacent valid neighbors, using the
neighboring valid *timestamps* in time order (time-weighted, unlike the
position-weighted method the code uses). -/
def specTimeInterp (tj : ℚ) (vj : ℚ) (tk : ℚ) (vk : ℚ) (t : ℚ) : ℚ :=
  vj + (vk - vj) * ((t - tj) / (tk - tj))

/-- The marked (pre-interpolation) value column of `open_smart_meter`. -/
def markedVals (raw : List (Time × Option ℚ)) : List (Option ℚ) :=
  raw.map (fun p => markError p.2)

/-! ### Structural lemmas about cleaning and interpolation -/

theorem validPairsFrom_mem {l : List (Option ℚ)} {n : ℕ} {p : ℕ × ℚ}
    (h : p ∈ validPairsFrom n l) : some p.2 ∈ l := by
  induction l generalizing n with
  | nil => simp [validPairsFrom] at h
  | cons o rest ih =>
    cases o with
    | none =>
      rw [validPairsFrom] at h
      exact List.mem_cons_of_mem _ (ih h)
    | some v =>
      rw [validPairsFrom] at h
      rcases List.mem_cons.mp h with h | h
      · rw [h]
        exact List.mem_cons_self _ _
      · exact List.mem_cons_of_mem _ (ih h)

theorem prevValid_spec {l : List (Option ℚ)} {i : ℕ} {q : ℕ × ℚ}
    (h : prevValid l i = some q) : some q.2 ∈ l ∧ q.1 < i := by
  have hm := List.mem_of_mem_getLast? h
  have := List.mem_filter.mp hm
  exact ⟨validPairsFrom_mem this.1, of_decide_eq_true this.2⟩

theorem nextValid_spec {l : List (Option ℚ)} {i : ℕ} {q : ℕ × ℚ}
    (h : nextValid l i = some q) : some q.2 ∈ l ∧ i < q.1 := by
  have hm := List.mem_of_mem_head? h
  have := List.mem_filter.mp hm
  exact ⟨validPairsFrom_mem this.1, of_decide_eq_true this.2⟩

/-- Every value produced by `interpolateAt` is a convex combination of two
valid values of the input column. -/
theorem interpolateAt_convex (l : List (Option ℚ)) (i : ℕ) :
    interpolateAt l i = none ∨
    ∃ a b r : ℚ, some a ∈ l ∧ some b ∈ l ∧ 0 ≤ r ∧ r ≤ 1 ∧
      interpolateAt l i = some ((1 - r) * a + r * b) := by
  unfold interpolateAt
  split
  case h_1 v0 heq =>
    right
    exact ⟨v0, v0, 0, List.get?_mem heq, List.get?_mem heq, le_refl 0,
      by norm_num, by rw [show (1 - (0 : ℚ)) * v0 + 0 * v0 = v0 by ring]⟩
  case h_2 =>
    split
    case h_1 j vj k vk hp hn =>
      right
      obtain ⟨hmj, hji⟩ := prevValid_spec hp
      obtain ⟨hmk, hik⟩ := nextValid_spec hn
      have hjiq : (j : ℚ) < (i : ℚ) := by exact_mod_cast hji
      have hikq : (i : ℚ) < (k : ℚ) := by exact_mod_cast hik
      have hd : (0 : ℚ) < (k : ℚ) - (j : ℚ) := by linarith
      refine ⟨vj, vk, ((i : ℚ) - (j : ℚ)) / ((k : ℚ) - (j : ℚ)), hmj, hmk, ?_, ?_, ?_⟩
      · exact div_nonneg (by linarith) (le_of_lt hd)
      · exact (div_le_one hd).mpr (by linarith)
      · rw [show (1 - ((i : ℚ) - (j : ℚ)) / ((k : ℚ) - (j : ℚ))) * vj +
          ((i : ℚ) - (j : ℚ)) / ((k : ℚ) - (j : ℚ)) * vk =
          vj + (vk - vj) * (((i : ℚ) - (j : ℚ)) / ((k : ℚ) - (j : ℚ))) by ring]
    case h_2 j vj hp hn =>
      right
      obtain ⟨hmj, _⟩ := prevValid_spec hp
      exact ⟨vj, vj, 0, hmj, hmj, le_refl 0, by norm_num,
        by rw [show (1 - (0 : ℚ)) * vj + 0 * vj = vj by ring]⟩
    case h_3 =>
      left
      rfl

theorem convex_le {a b r B : ℚ} (ha : a ≤ B) (hb : b ≤ B) (h0 : 0 ≤ r)
    (h1 : r ≤ 1) : (1 - r) * a + r * b ≤ B := by nlinarith

theorem convex_ge {a b r A : ℚ} (ha : A ≤ a) (hb : A ≤ b) (h0 : 0 ≤ r)
    (h1 : r ≤ 1) : A ≤ (1 - r) * a + r * b := by nlinarith

/-- A valid marked value comes from a raw reading of the same value, and is
at most 15 (the outlier policy marked everything larger as missing). -/
theorem mem_markedVals {raw : List (Time × Option ℚ)} {x : ℚ}
    (h : some x ∈ markedVals raw) :
    (∃ p ∈ raw, p.2 = some x) ∧ x ≤ 15 := by
  obtain ⟨p, hp, he⟩ := List.mem_map.mp h
  cases hv : p.2 with
  | none =>
    rw [hv] at he
    exact absurd he (by simp [markError])
  | some y =>
    rw [hv] at he
    have he' : (if 15 < y then (none : Option ℚ) else some y) = some x := he
    by_cases hy : 15 < y
    · rw [if_pos hy] at he'
      exact absurd he' (by simp)
    · rw [if_neg hy] at he'
      obtain rfl : y = x := by injection he'
      exact ⟨⟨p, hp, hv⟩, le_of_not_lt hy⟩

theorem interpIdx_length (l : List (Option ℚ)) (n : ℕ) (m : List (Option ℚ)) :
    (interpIdx l n m).length = m.length := by
  induction m generalizing n with
  | nil => rfl
  | cons a rest ih => simp [interpIdx, ih]

theorem interpolate_length (l : List (Option ℚ)) :
    (interpolate l).length = l.length := interpIdx_length l 0 l

theorem mem_interpIdx {l : List (Option ℚ)} {n : ℕ} {m : List (Option ℚ)}
    {o : Option ℚ} (h : o ∈ interpIdx l n m) : ∃ i, interpolateAt l i = o := by
  induction m generalizing n with
  | nil => simp [interpIdx] at h
  | cons a rest ih =>
    rw [interpIdx] at h
    rcases List.mem_cons.mp h with h | h
    · exact ⟨n, h.symm⟩
    · exact ih h

theorem mem_interpolate {l : List (Option ℚ)} {o : Option ℚ}
    (h : o ∈ interpolate l) : ∃ i, interpolateAt l i = o :=
  mem_interpIdx h

theorem interpIdx_getElem? (l : List (Option ℚ)) (m : List (Option ℚ))
    (n i : ℕ) (hi : i < m.length) :
    (interpIdx l n m)[i]? = some (interpolateAt l (n + i)) := by
  induction m generalizing n i with
  | nil => simp at hi
  | cons a rest ih =>
    cases i with
    | zero => simp [interpIdx]
    | succ k =>
      rw [interpIdx]
      simp only [List.getElem?_cons_succ]
      rw [ih (n + 1) k (by simpa using hi)]
      rw [show n + 1 + k = n + (k + 1) by omega]

theorem open_smart_meter_eq (raw : List (Time × Option ℚ)) :
    open_smart_meter raw = (raw.map Prod.fst).zip (interpolate (markedVals raw)) := by
  unfold open_smart_meter markedVals
  rw [List.map_map, List.map_map]
  rfl

/-- Membership form of `open_smart_meter`: every row of the cleaned series
carries an `interpolateAt` value of the marked column. -/
theorem mem_open_smart_meter {raw : List (Time × Option ℚ)}
    {p : Time × Option ℚ} (h : p ∈ open_smart_meter raw) :
    ∃ i, interpolateAt (markedVals raw) i = p.2 := by
  rw [open_smart_meter_eq] at h
  obtain ⟨-, h2⟩ := List.of_mem_zip h
  exact mem_interpolate h2

/-- Cleaning does not change the timestamp column. -/
theorem open_smart_meter_fst (raw : List (Time × Option ℚ)) :
    (open_smart_meter raw).map Prod.fst = raw.map Prod.fst := by
  rw [open_smart_meter_eq]
  apply List.map_fst_zip
  rw [interpolate_length]
  unfold markedVals
  simp

/-! ### Lemmas about the index lookup and the inner join -/

theorem lookupT_isSome {α : Type} (t : Time) (l : List (Time × α)) :
    (lookupT t l).isSome = true ↔ t ∈ l.map Prod.fst := by
  induction l with
  | nil => simp [lookupT]
  | cons p rest ih =>
    by_cases h : p.1 = t
    · simp [lookupT, h]
    · simp only [lookupT, if_neg h, List.map_cons, List.mem_cons, ih]
      constructor
      · exact fun hm => Or.inr hm
      · rintro (rfl | hm)
        · exact absurd rfl h
        · exact hm

theorem lookupT_mem {α : Type} {t : Time} {l : List (Time × α)} {v : α}
    (h : lookupT t l = some v) : (t, v) ∈ l := by
  induction l with
  | nil => simp [lookupT] at h
  | cons p rest ih =>
    rw [lookupT] at h
    by_cases hu : p.1 = t
    · rw [if_pos hu] at h
      obtain rfl : p.2 = v := by injection h
      rw [← hu]
      exact List.mem_cons_self _ _
    · rw [if_neg hu] at h
      exact List.mem_cons_of_mem _ (ih h)

theorem innerJoin_map_t (home : List (Time × Option ℚ))
    (grid : List (Time × GridRow)) :
    (innerJoin home grid).map (fun r => r.t) =
      (home.map Prod.fst).filter (fun t => (lookupT t grid).isSome) := by
  induction home with
  | nil => rfl
  | cons p rest ih =>
    simp only [innerJoin, List.filterMap_cons, List.map_cons, List.filter_cons]
    cases hl : lookupT p.1 grid with
    | none => simpa [hl] using ih
    | some g => simpa [hl] using ih

theorem mem_innerJoin {home : List (Time × Option ℚ)}
    {grid : List (Time × GridRow)} {r : JoinedRow}
    (h : r ∈ innerJoin home grid) :
    (r.t, r.imports) ∈ home ∧ lookupT r.t grid = some r.grid := by
  obtain ⟨p, hp, he⟩ := List.mem_filterMap.mp h
  cases hl : lookupT p.1 grid with
  | none =>
    rw [hl] at he
    exact absurd he (by simp)
  | some g =>
    rw [hl] at he
    obtain rfl : (⟨p.1, p.2, g⟩ : JoinedRow) = r := by injection he
    exact ⟨hp, hl⟩

/-! ### Lemmas about skipna sums -/

theorem nanSum_nil : nanSum [] = 0 := rfl

theorem nanSum_cons (o : Option ℚ) (l : List (Option ℚ)) :
    nanSum (o :: l) = o.getD 0 + nanSum l := by simp [nanSum]

theorem nanSum_eq_zero {α : Type} (L : List α) (f : α → Option ℚ)
    (h : ∀ p ∈ L, f p = none) : nanSum (L.map f) = 0 := by
  induction L with
  | nil => rfl
  | cons p rest ih =>
    rw [List.map_cons, nanSum_cons, h p (List.mem_cons_self _ _)]
    rw [ih (fun q hq => h q (List.mem_cons_of_mem _ hq))]
    simp

/-- Entries on which `f` is missing may be dropped from a skipna sum. -/
theorem nanSum_filter {α : Type} (L : List α) (f : α → Option ℚ) (q : α → Bool)
    (h : ∀ p ∈ L, q p = false → f p = none) :
    nanSum (L.map f) = nanSum ((L.filter q).map f) := by
  induction L with
  | nil => rfl
  | cons p rest ih =>
    have ih' := ih (fun a ha hq => h a (List.mem_cons_of_mem _ ha) hq)
    rw [List.map_cons, nanSum_cons, List.filter_cons]
    cases hq : q p with
    | false =>
      rw [h p (List.mem_cons_self _ _) hq]
      simpa using ih'
    | true => simp [nanSum_cons, ih']

theorem sum_map_div (l : List ℚ) (T : ℚ) :
    (l.map (fun g => g / T)).sum = l.sum / T := by
  induction l with
  | nil => simp
  | cons a t ih => simp [ih, add_div]

theorem map_getD_range (l : List ℚ) :
    (List.range l.length).map (fun s => l.getD s 0) = l := by
  induction l with
  | nil => rfl
  | cons a t ih =>
    rw [List.length_cons, List.range_succ_eq_map, List.map_cons, List.map_map]
    rw [show ((fun s => (a :: t).getD s 0) ∘ Nat.succ) = (fun s => t.getD s 0)
      from rfl]
    rw [ih]
    rfl

/-- Exchanging a sum over source columns with a skipna sum over rows. -/
theorem sum_range_swap {α : Type} (L : List α) (n : ℕ) (F : α → ℕ → Option ℚ) :
    ((List.range n).map (fun s => nanSum (L.map (fun p => F p s)))).sum =
      (L.map (fun p => ((List.range n).map (fun s => (F p s).getD 0)).sum)).sum := by
  induction L with
  | nil => simp [nanSum]
  | cons p rest ih =>
    simp only [List.map_cons, nanSum_cons]
    rw [List.sum_map_add, ih, List.sum_cons]

/-! ### Claim theorems -/

/-- C2, counterexample: `interpolate()` with its default `linear` method
fills a gap proportionally to row *position*, ignoring the timestamps. With
valid readings 0 at time 0 and 10 at time 10 and a missing reading at time
1, the code fills 5 (the positional midpoint), while the interpolation
between the time-adjacent valid neighbors using the neighboring valid
timestamps — as the claim states — would give 1. -/
theorem C2_counterexample :
    open_smart_meter [((0 : ℤ), some (0 : ℚ)), (1, none), (10, some 10)] =
      [(0, some 0), (1, some 5), (10, some 10)] ∧
    specTimeInterp 0 0 10 10 1 = 1 ∧ (5 : ℚ) ≠ 1 := by
  refine ⟨?_, by norm_num [specTimeInterp], by norm_num⟩
  norm_num [open_smart_meter, markError, interpolate, interpIdx, interpolateAt,
    prevValid, nextValid, validPairs, validPairsFrom]

/-- C2, amended: the cleaned series contains no reading strictly greater
than 15 kWh (every filled value is a convex combination of valid readings,
all of which are at most 15), and readings at most 15 are unchanged.
Marked and originally-missing rows are filled by the positional linear
interpolation of `interpolate()`, which weights by row position rather than
by the neighboring timestamps. -/
theorem C2_cleaned_bounded (raw : List (Time × Option ℚ)) :
    (∀ p ∈ open_smart_meter raw, ∀ v : ℚ, p.2 = some v → v ≤ 15) ∧
    (∀ (i : ℕ) (t : Time) (v : ℚ), raw[i]? = some (t, some v) → v ≤ 15 →
      (open_smart_meter raw)[i]? = some (t, some v)) := by
  constructor
  · intro p hp v hv
    obtain ⟨i, hi⟩ := mem_open_smart_meter hp
    rw [hv] at hi
    rcases interpolateAt_convex (markedVals raw) i with hn | ⟨a, b, r, ha, hb, h0, h1, he⟩
    · rw [hn] at hi
      exact absurd hi (by simp)
    · rw [he] at hi
      obtain heq : (1 - r) * a + r * b = v := by injection hi
      rw [← heq]
      exact convex_le (mem_markedVals ha).2 (mem_markedVals hb).2 h0 h1
  · intro i t v hr hle
    have hilen : i < raw.length := by
      rcases List.getElem?_eq_some.mp hr with ⟨h, -⟩
      exact h
    have hmv : (markedVals raw)[i]? = some (some v) := by
      unfold markedVals
      rw [List.getElem?_map, hr]
      show some (markError (some v)) = some (some v)
      rw [show markError (some v) = (if 15 < v then (none : Option ℚ) else some v)
        from rfl]
      rw [if_neg (not_lt.mpr hle)]
    have hfst : (raw.map Prod.fst)[i]? = some t := by
      rw [List.getElem?_map, hr]
      rfl
    have hia : interpolateAt (markedVals raw) i = some v := by
      unfold interpolateAt
      rw [List.get?_eq_getElem?, hmv]
    have hint : (interpolate (markedVals raw))[i]? = some (some v) := by
      unfold interpolate
      have hlen2 : i < (markedVals raw).length := by
        unfold markedVals
        rw [List.length_map]
        exact hilen
      rw [interpIdx_getElem? _ _ 0 i hlen2, Nat.zero_add, hia]
    rw [open_smart_meter_eq]
    exact List.getElem?_zip_eq_some.mpr ⟨hfst, hint⟩

/-- C2, witness: a concrete reading of 2 kWh at time 0 is kept unchanged. -/
theorem C2_witness :
    (open_smart_meter [((0 : ℤ), some (2 : ℚ))])[0]? = some (0, some 2) :=
  (C2_cleaned_bounded [((0 : ℤ), some (2 : ℚ))]).2 0 0 2 (by decide) (by decide)

/-- C9, counterexample: a negative reading (here -5 kWh) is not above the
15 kWh outlier threshold, so cleaning keeps it: the cleaned series can
contain values below 0, contradicting the claimed invariant. -/
theorem C9_counterexample :
    open_smart_meter [((0 : ℤ), some (-5 : ℚ))] = [(0, some (-5))] ∧
    ¬ (0 : ℚ) ≤ -5 := by
  refine ⟨?_, by norm_num⟩
  norm_num [open_smart_meter, markError, interpolate, interpIdx, interpolateAt,
    prevValid, nextValid, validPairs, validPairsFrom]

/-- C9, amended: when every present raw reading is nonnegative, every value
of the cleaned series is nonnegative (filled values are convex combinations
of valid readings); the code itself never clamps negative readings. -/
theorem C9_cleaned_nonneg (raw : List (Time × Option ℚ))
    (hnn : ∀ p ∈ raw, ∀ v : ℚ, p.2 = some v → 0 ≤ v) :
    ∀ p ∈ open_smart_meter raw, ∀ v : ℚ, p.2 = some v → 0 ≤ v := by
  intro p hp v hv
  obtain ⟨i, hi⟩ := mem_open_smart_meter hp
  rw [hv] at hi
  rcases interpolateAt_convex (markedVals raw) i with hn | ⟨a, b, r, ha, hb, h0, h1, he⟩
  · rw [hn] at hi
    exact absurd hi (by simp)
  · rw [he] at hi
    obtain heq : (1 - r) * a + r * b = v := by injection hi
    rw [← heq]
    obtain ⟨⟨pa, hpa, hva⟩, -⟩ := mem_markedVals ha
    obtain ⟨⟨pb, hpb, hvb⟩, -⟩ := mem_markedVals hb
    exact convex_ge (hnn pa hpa a hva) (hnn pb hpb b hvb) h0 h1

/-- C1, counterexample: in a week whose import volumes vary (1 kWh then
3 kWh) but whose carbon intensity is flat at 100, the load-weighted weekly
intensity equals the arithmetic mean of the per-timestamp intensities (both
are 100), so the two do not differ "whenever energy values vary". -/
theorem C1_counterexample :
    ([⟨0, some 1, ⟨100, 5, [1]⟩⟩, ⟨1, some 3, ⟨100, 7, [1]⟩⟩] :
        List JoinedRow).map (fun r => r.imports) = [some 1, some 3] ∧
    homeCarbonIntensity
        [⟨0, some 1, ⟨100, 5, [1]⟩⟩, ⟨1, some 3, ⟨100, 7, [1]⟩⟩] 0 =
      some (specArithMeanIntensity
        [⟨0, some 1, ⟨100, 5, [1]⟩⟩, ⟨1, some 3, ⟨100, 7, [1]⟩⟩] 0) ∧
    (some (1 : ℚ) : Option ℚ) ≠ some 3 := by
  refine ⟨by norm_num, ?_, by norm_num⟩
  norm_num +decide [homeCarbonIntensity, specArithMeanIntensity, weeklyImports,
    weeklyHomeCarbon, weekRows, weekOf, homeCarbon, nanSum, slotsPerWeek]

/-- C1, amended: for every week with non-zero weekly energy, the weekly home
carbon intensity computed by `carbon_mix` equals the skipna sum of
`imports * carbon_intensity` over the week's rows divided by the sum of
imports, and the weekly grid intensity equals the sum of
`generation * carbon_intensity` divided by the sum of generation (the
load-weighted averages); this can differ from the arithmetic mean of the
per-timestamp intensities when energy values vary within the week (witnessed
by a concrete week), but need not always differ. -/
theorem C1_weekly_weighted (j : List JoinedRow) (w : ℤ)
    (hI : weeklyImports j w ≠ 0) (hG : weeklyGeneration j w ≠ 0) :
    (homeCarbonIntensity j w =
        some (nanSum ((weekRows j w).map
            (fun r => r.imports.map (fun x => x * r.grid.carbonIntensity))) /
          nanSum ((weekRows j w).map (fun r => r.imports))) ∧
      gridCarbonIntensity j w =
        some (((weekRows j w).map
            (fun r => r.grid.generation * r.grid.carbonIntensity)).sum /
          ((weekRows j w).map (fun r => r.grid.generation)).sum)) ∧
    ∃ j' : List JoinedRow, ∃ w' : ℤ,
      (∃ r1 ∈ weekRows j' w', ∃ r2 ∈ weekRows j' w', r1.imports ≠ r2.imports) ∧
      homeCarbonIntensity j' w' ≠ some (specArithMeanIntensity j' w') := by
  refine ⟨⟨?_, ?_⟩, ?_⟩
  · unfold homeCarbonIntensity
    rw [if_neg hI]
    rfl
  · unfold gridCarbonIntensity
    rw [if_neg hG]
    rfl
  · refine ⟨[⟨0, some 1, ⟨100, 5, [1]⟩⟩, ⟨1, some 3, ⟨200, 7, [1]⟩⟩], 0, ?_, ?_⟩
    · refine ⟨⟨0, some 1, ⟨100, 5, [1]⟩⟩, ?_, ⟨1, some 3, ⟨200, 7, [1]⟩⟩, ?_, ?_⟩
      · norm_num +decide [weekRows, weekOf, slotsPerWeek]
      · norm_num +decide [weekRows, weekOf, slotsPerWeek]
      · norm_num
    · norm_num +decide [homeCarbonIntensity, specArithMeanIntensity, weeklyImports,
        weeklyHomeCarbon, weekRows, weekOf, homeCarbon, nanSum, slotsPerWeek]

/-- C1, witness: a one-row week with import 1 kWh at intensity 100 has
weekly home intensity 100. -/
theorem C1_witness :
    homeCarbonIntensity [⟨0, some 1, ⟨100, 5, [1]⟩⟩] 0 = some 100 :=
  (((C1_weekly_weighted [⟨0, some 1, ⟨100, 5, [1]⟩⟩] 0
      (by norm_num +decide [weeklyImports, weekRows, weekOf, nanSum, slotsPerWeek])
      (by norm_num +decide [weeklyGeneration, weekRows, weekOf, slotsPerWeek])).1).1).trans
    (by norm_num +decide [weekRows, weekOf, homeCarbon, nanSum, slotsPerWeek])

/-- C9, witness: with the single nonnegative reading 7 at time 0, the
cleaned value is nonnegative. -/
theorem C9_witness : (0 : ℚ) ≤ 7 :=
  C9_cleaned_nonneg [((0 : ℤ), some (7 : ℚ))]
    (by
      intro p hp v hv
      simp only [List.mem_singleton] at hp
      rw [hp] at hv
      obtain rfl : (7 : ℚ) = v := by injection hv
      norm_num)
    (0, some 7) (by decide) 7 rfl

/-- C3: the join performed by `carbon_mix` keeps exactly the timestamps
present in both series (inner-join semantics) and its row count is the size
of the timestamp intersection, assuming each series has distinct timestamps
(pandas duplicates rows on duplicate index keys, outside this claim's
scope). -/
theorem C3_inner_join_semantics (raw : List (Time × Option ℚ))
    (grid : List (Time × GridRow))
    (hh : (raw.map Prod.fst).Nodup) (hg : (grid.map Prod.fst).Nodup) :
    (∀ t : Time, t ∈ (carbonJoined raw grid).map (fun r => r.t) ↔
      (t ∈ raw.map Prod.fst ∧ t ∈ grid.map Prod.fst)) ∧
    (carbonJoined raw grid).length =
      ((raw.map Prod.fst).toFinset ∩ (grid.map Prod.fst).toFinset).card := by
  have hkeys : (carbonJoined raw grid).map (fun r => r.t) =
      (raw.map Prod.fst).filter (fun t => (lookupT t grid).isSome) := by
    unfold carbonJoined
    rw [innerJoin_map_t, open_smart_meter_fst]
  constructor
  · intro t
    rw [hkeys, List.mem_filter, lookupT_isSome]
  · have hlen : (carbonJoined raw grid).length =
        ((raw.map Prod.fst).filter (fun t => (lookupT t grid).isSome)).length := by
      rw [← hkeys, List.length_map]
    rw [hlen]
    have hcongr : (raw.map Prod.fst).filter (fun t => (lookupT t grid).isSome) =
        (raw.map Prod.fst).filter (fun t => decide (t ∈ grid.map Prod.fst)) := by
      apply List.filter_congr
      intro t _
      cases hb : (lookupT t grid).isSome with
      | true => exact (decide_eq_true ((lookupT_isSome t grid).mp hb)).symm
      | false =>
        have hnm : t ∉ grid.map Prod.fst := fun hm =>
          by rw [(lookupT_isSome t grid).mpr hm] at hb; exact Bool.true_eq_false.mp hb
        exact (decide_eq_false hnm).symm
    rw [hcongr]
    have hnodupf : ((raw.map Prod.fst).filter
        (fun t => decide (t ∈ grid.map Prod.fst))).Nodup := hh.filter _
    rw [← List.toFinset_card_of_nodup hnodupf]
    congr 1
    apply Finset.ext
    intro x
    simp [List.mem_toFinset, List.mem_filter]

/-- C3, witness: with home timestamps `{0, 1}` and grid timestamps `{1, 2}`,
the joined table has exactly one row (timestamp 1). -/
theorem C3_witness :
    (carbonJoined [((0 : ℤ), some (1 : ℚ)), (1, some 2)]
      [((1 : ℤ), ⟨100, 4, [1]⟩), (2, ⟨200, 5, [1]⟩)]).length = 1 :=
  ((C3_inner_join_semantics [((0 : ℤ), some (1 : ℚ)), (1, some 2)]
      [((1 : ℤ), ⟨100, 4, [1]⟩), (2, ⟨200, 5, [1]⟩)]
      (by decide) (by decide)).2).trans (by decide)

/-- C4: for a grid row whose total across the 10 source-generation columns
is non-zero, the normalized source-mix fractions (each column divided by the
row's total) sum to exactly 1, and `mixFrac` computes exactly those
fractions. -/
theorem C4_fractions_sum_one (r : GridRow) (hT : r.sources.sum ≠ 0)
    (hlen : r.sources.length = 10) :
    (∀ s : ℕ, mixFrac r s =
      (r.sources.get? s).map (fun g => g / r.sources.sum)) ∧
    (r.sources.map (fun g => g / r.sources.sum)).sum = 1 := by
  constructor
  · intro s
    unfold mixFrac
    rw [if_neg hT]
  · rw [sum_map_div, div_self hT]

/-- C4, witness: a uniform ten-source row has fractions summing to 1. -/
theorem C4_witness :
    (([1, 1, 1, 1, 1, 1, 1, 1, 1, 1] : List ℚ).map
      (fun g => g / ([1, 1, 1, 1, 1, 1, 1, 1, 1, 1] : List ℚ).sum)).sum = 1 :=
  (C4_fractions_sum_one ⟨0, 0, [1, 1, 1, 1, 1, 1, 1, 1, 1, 1]⟩
    (by norm_num) (by decide)).2

/-- C6: when the carbon intensity is one constant `c` at all joined
timestamps (the rows of the inner-joined table of `carbon_mix`), the weekly
home and grid carbon intensities computed by `carbon_mix` both equal `c` on
every week with non-zero weekly energy. -/
theorem C6_constant_intensity (raw : List (Time × Option ℚ))
    (grid : List (Time × GridRow)) (c : ℚ) (w : ℤ)
    (hc : ∀ r ∈ carbonJoined raw grid, r.grid.carbonIntensity = c)
    (hI : weeklyImports (carbonJoined raw grid) w ≠ 0)
    (hG : weeklyGeneration (carbonJoined raw grid) w ≠ 0) :
    homeCarbonIntensity (carbonJoined raw grid) w = some c ∧
    gridCarbonIntensity (carbonJoined raw grid) w = some c := by
  have hcj : ∀ r ∈ weekRows (carbonJoined raw grid) w,
      r.grid.carbonIntensity = c := by
    intro r hr
    exact hc r (List.mem_filter.mp hr).1
  constructor
  · have hnum : weeklyHomeCarbon (carbonJoined raw grid) w =
        c * weeklyImports (carbonJoined raw grid) w := by
      unfold weeklyHomeCarbon weeklyImports nanSum
      rw [List.map_map, List.map_map, ← List.sum_map_mul_left]
      apply congrArg List.sum
      apply List.map_congr_left
      intro r hr
      show (homeCarbon r).getD 0 = c * (r.imports.getD 0)
      cases hx : r.imports with
      | none => simp [homeCarbon, hx]
      | some x => simp [homeCarbon, hx, hcj r hr, mul_comm]
    unfold homeCarbonIntensity
    rw [if_neg hI, hnum, mul_div_assoc, div_self hI, mul_one]
  · have hnum : weeklyGridCarbon (carbonJoined raw grid) w =
        c * weeklyGeneration (carbonJoined raw grid) w := by
      unfold weeklyGridCarbon weeklyGeneration
      rw [← List.sum_map_mul_left]
      apply congrArg List.sum
      apply List.map_congr_left
      intro r hr
      show gridCarbon r = c * r.grid.generation
      rw [gridCarbon, hcj r hr, mul_comm]
    unfold gridCarbonIntensity
    rw [if_neg hG, hnum, mul_div_assoc, div_self hG, mul_one]

/-- C6, witness: intensity 50 at the one joined timestamp gives weekly home
intensity 50, even though a non-joined grid row (timestamp 99, absent from
the home series) carries a different intensity. -/
theorem C6_witness :
    homeCarbonIntensity
      (carbonJoined [((0 : ℤ), some (2 : ℚ))]
        [((0 : ℤ), ⟨50, 4, [1]⟩), (99, ⟨999, 7, [1]⟩)]) 0 =
      some 50 :=
  (C6_constant_intensity [((0 : ℤ), some (2 : ℚ))]
    [((0 : ℤ), ⟨50, 4, [1]⟩), (99, ⟨999, 7, [1]⟩)]
    50 0 (by decide)
    (by
      norm_num +decide [carbonJoined, innerJoin, lookupT, open_smart_meter,
        markError, interpolate, interpIdx, interpolateAt, prevValid, nextValid,
        validPairs, validPairsFrom, weeklyImports, weekRows, weekOf, nanSum,
        slotsPerWeek, List.filterMap_cons])
    (by
      norm_num +decide [carbonJoined, innerJoin, lookupT, open_smart_meter,
        markError, interpolate, interpIdx, interpolateAt, prevValid, nextValid,
        validPairs, validPairsFrom, weeklyGeneration, weekRows, weekOf,
        slotsPerWeek, List.filterMap_cons])).1

/-- C7: a week whose summed energy divisor is zero (weekly imports on the
home side, weekly generation on the grid side) yields an undefined (`none`,
modelling pandas NaN/inf) weekly intensity rather than an error, and a week
with a non-zero divisor is unaffected: its intensity is the ordinary
quotient. -/
theorem C7_zero_divisor_nan (j : List JoinedRow) (w : ℤ) :
    (weeklyImports j w = 0 → homeCarbonIntensity j w = none) ∧
    (weeklyGeneration j w = 0 → gridCarbonIntensity j w = none) ∧
    (weeklyImports j w ≠ 0 → homeCarbonIntensity j w =
      some (weeklyHomeCarbon j w / weeklyImports j w)) ∧
    (weeklyGeneration j w ≠ 0 → gridCarbonIntensity j w =
      some (weeklyGridCarbon j w / weeklyGeneration j w)) := by
  refine ⟨fun h => ?_, fun h => ?_, fun h => ?_, fun h => ?_⟩ <;>
    simp [homeCarbonIntensity, gridCarbonIntensity, h]

/-- C7, witness: a week of all-zero imports has undefined home intensity,
while a normal week (imports 2, generation 4, intensity 100) keeps its
quotient, 100. -/
theorem C7_witness :
    homeCarbonIntensity [⟨0, some 0, ⟨100, 4, [1]⟩⟩] 0 = none ∧
    gridCarbonIntensity [⟨0, some 2, ⟨100, 4, [1]⟩⟩] 0 = some 100 :=
  ⟨(C7_zero_divisor_nan [⟨0, some 0, ⟨100, 4, [1]⟩⟩] 0).1
      (by norm_num +decide [weeklyImports, weekRows, weekOf, nanSum, slotsPerWeek]),
    ((C7_zero_divisor_nan [⟨0, some 2, ⟨100, 4, [1]⟩⟩] 0).2.2.2
      (by norm_num +decide [weeklyGeneration, weekRows, weekOf, slotsPerWeek])).trans
      (by norm_num +decide [weeklyGridCarbon, weeklyGeneration, weekRows,
        weekOf, gridCarbon, slotsPerWeek])⟩

/-- C8: the overall summary values computed by `carbon_mix` are
`home_avg = total home carbon / total imports` and
`grid_avg = total grid carbon / total generation` over the whole joined
table, and the two console summary lines report them formatted to two
decimal places. -/
theorem C8_overall_averages (j : List JoinedRow)
    (hI : totalImports j ≠ 0) (hG : totalGeneration j ≠ 0) :
    homeAvg j = some (totalHomeCarbon j / totalImports j) ∧
    gridAvg j = some (totalGridCarbon j / totalGeneration j) ∧
    summaryValues j =
      (some (fmtTwoDp (totalHomeCarbon j / totalImports j)),
        some (fmtTwoDp (totalGridCarbon j / totalGeneration j))) := by
  unfold summaryValues homeAvg gridAvg
  rw [if_neg hI, if_neg hG]
  exact ⟨rfl, rfl, rfl⟩

/-- C8, witness: one row with imports 2, generation 4 and intensity 101
reports home and grid averages 101.00. -/
theorem C8_witness :
    summaryValues [⟨0, some 2, ⟨101, 4, [1]⟩⟩] = (some 101, some 101) :=
  ((C8_overall_averages [⟨0, some 2, ⟨101, 4, [1]⟩⟩]
      (by norm_num [totalImports, nanSum])
      (by norm_num [totalGeneration])).2.2).trans
    (by
      norm_num [totalImports, totalHomeCarbon, totalGridCarbon,
        totalGeneration, homeCarbon, gridCarbon, nanSum, fmtTwoDp,
        roundHalfEven])

/-- A home row with a valid reading, a matching grid row with ten source
columns and a non-zero source total, contributes exactly its import volume
to the sum of its ten attributed values. -/
theorem attributed_row_sum {grid : List (Time × GridRow)} {p : Time × Option ℚ}
    {x : ℚ} {r : GridRow} (hx : p.2 = some x) (hr : lookupT p.1 grid = some r)
    (hlen : r.sources.length = 10) (hT : r.sources.sum ≠ 0) :
    ((List.range 10).map (fun s => (attributedAt grid p s).getD 0)).sum = x := by
  have hrow : ∀ s : ℕ, (attributedAt grid p s).getD 0 =
      x * (r.sources.getD s 0 / r.sources.sum) := by
    intro s
    have ha : attributedAt grid p s = (mixFrac r s).map (fun f => x * f) := by
      unfold attributedAt
      rw [hx, hr]
    rw [ha]
    unfold mixFrac
    rw [if_neg hT]
    cases hs : r.sources.get? s with
    | none =>
      have hs' : r.sources[s]? = none := by rw [← List.get?_eq_getElem?, hs]
      simp [hs, hs', List.getD_eq_getElem?_getD]
    | some g =>
      have hs' : r.sources[s]? = some g := by rw [← List.get?_eq_getElem?, hs]
      simp [hs, hs', List.getD_eq_getElem?_getD]
  rw [List.map_congr_left (fun s _ => hrow s)]
  rw [List.sum_map_mul_left]
  rw [show (fun s => r.sources.getD s 0 / r.sources.sum) =
    ((fun g => g / r.sources.sum) ∘ (fun s => r.sources.getD s 0)) from rfl]
  rw [← List.map_map, sum_map_div]
  rw [show List.range 10 = List.range r.sources.length by rw [hlen]]
  rw [map_getD_range, div_self hT, mul_one]

/-- C5, counterexample: with home rows at times 0 and 1 (imports 1 and 2)
but a grid row only at time 0, the summed weekly per-source usage is 1
(only the matched timestamp contributes) while the week's total home
imports are 3: the attribution is not a partition of the weekly imports. -/
theorem C5_counterexample :
    ((List.range 10).map (fun s =>
        calculate_home_source_usage [((0 : ℤ), some 1), (1, some 2)]
          [((0 : ℤ), ⟨0, 0, [1, 1, 1, 1, 1, 1, 1, 1, 1, 1]⟩)] 0 s)).sum = 1 ∧
    weeklyHomeImportsAll [((0 : ℤ), some 1), (1, some 2)] 0 = 3 ∧
    (1 : ℚ) ≠ 3 := by
  refine ⟨?_, ?_, by norm_num⟩
  · norm_num +decide [calculate_home_source_usage, attributedAt, mixFrac,
      lookupT, open_smart_meter, markError, interpolate, interpIdx,
      interpolateAt, prevValid, nextValid, validPairs, validPairsFrom,
      weekOf, slotsPerWeek, nanSum, List.range_succ]
  · norm_num +decide [weeklyHomeImportsAll, open_smart_meter, markError,
      interpolate, interpIdx, interpolateAt, prevValid, nextValid, validPairs,
      validPairsFrom, weekOf, slotsPerWeek, nanSum]

/-- C5, amended: for a week all of whose cleaned home rows have a valid
reading and a matching grid row with ten source columns and non-zero source
total, the sum of the ten weekly per-source attributed usages equals the
week's total home imports (the attribution is a partition there); rows
without a grid match (or with missing data) are dropped from the attributed
sums but still count in the weekly imports, breaking the partition. -/
theorem C5_partition (raw : List (Time × Option ℚ))
    (grid : List (Time × GridRow)) (w : ℤ)
    (hmatch : ∀ p ∈ open_smart_meter raw, weekOf p.1 = w →
      ∃ x : ℚ, ∃ r : GridRow, p.2 = some x ∧ lookupT p.1 grid = some r ∧
        r.sources.length = 10 ∧ r.sources.sum ≠ 0) :
    ((List.range 10).map
      (fun s => calculate_home_source_usage raw grid w s)).sum =
      weeklyHomeImportsAll raw w := by
  unfold calculate_home_source_usage weeklyHomeImportsAll
  rw [sum_range_swap ((open_smart_meter raw).filter
    (fun p => decide (weekOf p.1 = w))) 10 (fun p s => attributedAt grid p s)]
  unfold nanSum
  rw [List.map_map]
  apply congrArg List.sum
  apply List.map_congr_left
  intro p hp
  obtain ⟨hpm, hpw⟩ := List.mem_filter.mp hp
  obtain ⟨x, r, hx, hr, hlen, hT⟩ := hmatch p hpm (of_decide_eq_true hpw)
  show ((List.range 10).map (fun s => (attributedAt grid p s).getD 0)).sum =
    ((fun o : Option ℚ => o.getD 0) ∘ Prod.snd) p
  rw [attributed_row_sum hx hr hlen hT]
  rw [show ((fun o : Option ℚ => o.getD 0) ∘ Prod.snd) p = p.2.getD 0 from rfl]
  rw [hx]
  rfl

/-- C5, witness: one home row fully matched by a uniform ten-source grid
row: the ten attributed usages sum to the weekly imports. -/
theorem C5_witness :
    ((List.range 10).map (fun s =>
        calculate_home_source_usage [((0 : ℤ), some (1 : ℚ))]
          [((0 : ℤ), ⟨0, 0, [1, 1, 1, 1, 1, 1, 1, 1, 1, 1]⟩)] 0 s)).sum =
      weeklyHomeImportsAll [((0 : ℤ), some (1 : ℚ))] 0 :=
  C5_partition _ _ 0 (by
    intro p hp hw
    have hosm : open_smart_meter [((0 : ℤ), some (1 : ℚ))] = [(0, some 1)] := by
      norm_num [open_smart_meter, markError, interpolate, interpIdx,
        interpolateAt, prevValid, nextValid, validPairs, validPairsFrom]
    rw [hosm] at hp
    simp only [List.mem_singleton] at hp
    subst hp
    exact ⟨1, ⟨0, 0, [1, 1, 1, 1, 1, 1, 1, 1, 1, 1]⟩, rfl, rfl, rfl,
      by norm_num⟩)

/-- C10: `calculate_home_source_usage` combines home and grid by index
alignment: a home row with no grid match has a missing (`NaN`) attributed
value, which the weekly skipna sum counts as 0, so each weekly per-source
usage equals the sum of attributed values over only the timestamps present
in both series; a week with no common timestamps yields 0 for every source
rather than an error or a missing value. -/
theorem C10_index_alignment (raw : List (Time × Option ℚ))
    (grid : List (Time × GridRow)) (w : ℤ) (s : ℕ) :
    (∀ p ∈ open_smart_meter raw, lookupT p.1 grid = none →
      attributedAt grid p s = none) ∧
    (calculate_home_source_usage raw grid w s =
      nanSum ((((open_smart_meter raw).filter
          (fun p => decide (weekOf p.1 = w))).filter
        (fun p => (lookupT p.1 grid).isSome)).map
        (fun p => attributedAt grid p s))) ∧
    ((∀ p ∈ open_smart_meter raw, weekOf p.1 = w → lookupT p.1 grid = none) →
      calculate_home_source_usage raw grid w s = 0) := by
  have hnone : ∀ p : Time × Option ℚ, lookupT p.1 grid = none →
      attributedAt grid p s = none := by
    intro p hl
    cases hp2 : p.2 with
    | none => simp [attributedAt, hl, hp2]
    | some x => simp [attributedAt, hl, hp2]
  refine ⟨fun p _ hl => hnone p hl, ?_, ?_⟩
  · unfold calculate_home_source_usage
    apply nanSum_filter
    intro p _ hq
    apply hnone
    cases hl : lookupT p.1 grid with
    | none => rfl
    | some g =>
      rw [hl] at hq
      simp at hq
  · intro hall
    unfold calculate_home_source_usage
    apply nanSum_eq_zero
    intro p hp
    have hmem := List.mem_filter.mp hp
    exact hnone p (hall p hmem.1 (of_decide_eq_true hmem.2))

/-- C10, witness: with an empty grid series there is no common timestamp,
and the weekly usage of source 0 is 0 rather than an error. -/
theorem C10_witness :
    calculate_home_source_usage [((0 : ℤ), some (1 : ℚ))] [] 0 0 = 0 :=
  (C10_index_alignment [((0 : ℤ), some (1 : ℚ))] [] 0 0).2.2
    (fun p _ _ => rfl)

end BellverCarbon
